import Mathlib

/-!
Shallow embedding of the LinkNebula (AetherLink) protocol core, translated
from the Rust sources:
  - `common/src/protocol/mod.rs` (service request/response codec),
  - `common/src/protocol/data.rs` and `common/src/utils/checksum.rs`
    (data packets and CRC-16-CCITT),
  - `forward/src/routing/dynamic_forwarding.rs` (routing table),
  - `forward/src/directory/service_directory.rs` (QoS service directory),
  - `forward/src/directory/election.rs` (master election),
  - `forward/src/main.rs` (path-confirm relay).
Machine integers are modelled as `Nat` with explicit `% 2^w` at the points
where the Rust code truncates or wraps (release-profile wrapping semantics);
fallible or panicking operations return `Option`.
-/

namespace LinkNebula

/-- 6-byte node identifier (`NodeId(pub [u8; 6])`), bytes modelled as `Nat`s. -/
structure NodeId where
  bytes : List Nat
deriving DecidableEq

/-- Well-formed `NodeId`: exactly six bytes, each a `u8` value. -/
def NodeId.WF (n : NodeId) : Prop :=
  n.bytes.length = 6 ∧ ∀ b ∈ n.bytes, b < 256

/-- Service type tags (`ServiceType`, `#[repr(u8)]`). -/
inductive ServiceType
  | Storage
  | Processing
  | Gateway
  | VideoRelay
  | AudioRelay
  | DataRelay
  | SensorCollection
deriving DecidableEq

/-- The `#[repr(u8)]` discriminant of a `ServiceType` (used by `as u8`). -/
def ServiceType.toByte : ServiceType → Nat
  | .Storage => 0x01
  | .Processing => 0x02
  | .Gateway => 0x03
  | .VideoRelay => 0x04
  | .AudioRelay => 0x05
  | .DataRelay => 0x06
  | .SensorCollection => 0x07

/-- The tag match in `deserialize_service_request` (unknown tags rejected). -/
def serviceTypeFromByte : Nat → Option ServiceType
  | 0x01 => some .Storage
  | 0x02 => some .Processing
  | 0x03 => some .Gateway
  | 0x04 => some .VideoRelay
  | 0x05 => some .AudioRelay
  | 0x06 => some .DataRelay
  | 0x07 => some .SensorCollection
  | _ => none

/-- `QosRequirements { min_bandwidth: u16, max_latency: u16, reliability: u8 }`. -/
structure QosRequirements where
  min_bandwidth : Nat
  max_latency : Nat
  reliability : Nat
deriving DecidableEq

/-- `ServiceRequest { service_type, qos, expiry_time: u32 }`. -/
structure ServiceRequest where
  service_type : ServiceType
  qos : QosRequirements
  expiry_time : Nat
deriving DecidableEq

/-- Field ranges of the Rust `ServiceRequest` (u16/u8/u32 fields). -/
def ServiceRequest.WF (r : ServiceRequest) : Prop :=
  r.qos.min_bandwidth < 65536 ∧ r.qos.max_latency < 65536 ∧
  r.qos.reliability < 256 ∧ r.expiry_time < 4294967296

/-- `ServiceResponse { service_id: u32, server_node_id: NodeId, status: u8 }`. -/
structure ServiceResponse where
  service_id : Nat
  server_node_id : NodeId
  status : Nat
deriving DecidableEq

/-- Field ranges of the Rust `ServiceResponse`. -/
def ServiceResponse.WF (r : ServiceResponse) : Prop :=
  r.service_id < 4294967296 ∧ r.server_node_id.WF ∧ r.status < 256

/-- `serialize_service_request`: the eight bytes written into the buffer.
The Rust function takes a `&mut [u8]` and returns 0 when the buffer is
shorter than 8; here we return the written 8-byte prefix directly.
Bytes 6 and 7 are `expiry_time.to_be_bytes()[0]` and `[1]`, i.e. the two
MOST significant bytes `expiry/2^24` and `expiry/2^16 % 256`. -/
def serialize_service_request (r : ServiceRequest) : List Nat :=
  [ r.service_type.toByte,
    r.qos.min_bandwidth / 256 % 256, r.qos.min_bandwidth % 256,
    r.qos.max_latency / 256 % 256, r.qos.max_latency % 256,
    r.qos.reliability,
    r.expiry_time / 16777216 % 256, r.expiry_time / 65536 % 256 ]

/-- `deserialize_service_request`: length check, tag check, then field reads.
The expiry is rebuilt as `u32::from_be_bytes([b6, b7, 0, 0])`, i.e.
`b6 * 2^24 + b7 * 2^16`. -/
def deserialize_service_request (buffer : List Nat) : Option ServiceRequest :=
  if buffer.length < 8 then none
  else
    match serviceTypeFromByte (buffer.getD 0 0) with
    | none => none
    | some st =>
      some { service_type := st,
             qos := { min_bandwidth := buffer.getD 1 0 * 256 + buffer.getD 2 0,
                      max_latency := buffer.getD 3 0 * 256 + buffer.getD 4 0,
                      reliability := buffer.getD 5 0 },
             expiry_time := buffer.getD 6 0 * 16777216 + buffer.getD 7 0 * 65536 }

/-- `serialize_service_response`: the eleven bytes written into the buffer
(service id big-endian, six node-id bytes, status). -/
def serialize_service_response (r : ServiceResponse) : List Nat :=
  [ r.service_id / 16777216 % 256, r.service_id / 65536 % 256,
    r.service_id / 256 % 256, r.service_id % 256 ]
  ++ r.server_node_id.bytes
  ++ [ r.status ]

/-- `deserialize_service_response`: only a length check; no tag or status
validation. -/
def deserialize_service_response (buffer : List Nat) : Option ServiceResponse :=
  if buffer.length < 11 then none
  else
    some { service_id := buffer.getD 0 0 * 16777216 + buffer.getD 1 0 * 65536 +
                         buffer.getD 2 0 * 256 + buffer.getD 3 0,
           server_node_id := ⟨(buffer.drop 4).take 6⟩,
           status := buffer.getD 10 0 }

lemma serviceTypeFromByte_toByte (st : ServiceType) :
    serviceTypeFromByte st.toByte = some st := by
  cases st <;> rfl

lemma list_length_six {l : List Nat} (h : l.length = 6) :
    ∃ a b c d e f, l = [a, b, c, d, e, f] := by
  match l, h with
  | [a, b, c, d, e, f], _ => exact ⟨a, b, c, d, e, f, rfl⟩

/-- Request round trip, computed: the decode of an encode differs from the
original only in the expiry, which comes back with its low 16 bits zeroed. -/
lemma roundtrip_request (r : ServiceRequest) (h : r.WF) :
    deserialize_service_request (serialize_service_request r) =
      some { r with expiry_time := r.expiry_time / 65536 * 65536 } := by
  obtain ⟨st, ⟨bw, lat, rel⟩, expiry⟩ := r
  simp only [ServiceRequest.WF] at h
  obtain ⟨hbw, hlat, hrel, hexp⟩ := h
  simp only [deserialize_service_request, serialize_service_request,
    serviceTypeFromByte_toByte, List.length_cons, List.length_nil, List.getD_cons_succ,
    List.getD_cons_zero, Option.some.injEq, ServiceRequest.mk.injEq,
    QosRequirements.mk.injEq]
  norm_num
  refine ⟨⟨?_, ?_⟩, ?_⟩ <;> omega

/-- Response round trip, computed: exact. -/
lemma roundtrip_response (r : ServiceResponse) (h : r.WF) :
    deserialize_service_response (serialize_service_response r) = some r := by
  obtain ⟨sid, ⟨nb⟩, stt⟩ := r
  simp only [ServiceResponse.WF, NodeId.WF] at h
  obtain ⟨hid, ⟨hlen, _⟩, hst⟩ := h
  obtain ⟨a, b, c, d, e, f, hb⟩ := list_length_six hlen
  subst hb
  simp only [deserialize_service_response, serialize_service_response,
    List.cons_append, List.nil_append, List.length_cons, List.length_nil,
    List.getD_cons_succ, List.getD_cons_zero, List.drop_succ_cons, List.drop_zero,
    List.take_succ_cons, List.take_zero, Option.some.injEq, ServiceResponse.mk.injEq,
    NodeId.mk.injEq]
  norm_num
  omega

/-- C1 counterexample: the claimed round trip
`deserialize_service_request (serialize_service_request x) = x` fails at the
concrete request with `expiry_time = 1` (the decode returns expiry 0, because
the serializer emits the two MOST significant expiry bytes, not the low ones). -/
theorem C1_roundtrip_counterexample :
    deserialize_service_request (serialize_service_request
      { service_type := .Storage, qos := ⟨0, 0, 0⟩, expiry_time := 1 }) ≠
    some { service_type := ServiceType.Storage, qos := ⟨0, 0, 0⟩, expiry_time := 1 } := by
  decide

/-- C1 (amended): for every well-formed ServiceResponse the round trip is the
identity; for every well-formed ServiceRequest the round trip returns the
request with `expiry_time` replaced by `expiry_time / 2^16 * 2^16` (its low
16 bits zeroed), so it equals the original exactly when
`expiry_time % 2^16 = 0`. -/
theorem C1_roundtrip :
    (∀ r : ServiceRequest, r.WF →
      deserialize_service_request (serialize_service_request r) =
        some { r with expiry_time := r.expiry_time / 65536 * 65536 } ∧
      (deserialize_service_request (serialize_service_request r) = some r ↔
        r.expiry_time % 65536 = 0)) ∧
    (∀ r : ServiceResponse, r.WF →
      deserialize_service_response (serialize_service_response r) = some r) := by
  refine ⟨fun r h => ⟨roundtrip_request r h, ?_⟩, fun r h => roundtrip_response r h⟩
  rw [roundtrip_request r h]
  rcases r with ⟨st, q, expiry⟩
  simp only [Option.some.injEq, ServiceRequest.mk.injEq, true_and, and_true]
  omega

/-- Witness for C1 at concrete values: a request whose expiry is a multiple of
2^16 round-trips exactly, and a concrete response round-trips exactly. -/
theorem C1_roundtrip_witness :
    deserialize_service_request (serialize_service_request
      { service_type := .VideoRelay, qos := ⟨500, 100, 80⟩, expiry_time := 65536 }) =
      some { service_type := ServiceType.VideoRelay, qos := ⟨500, 100, 80⟩,
             expiry_time := 65536 } ∧
    deserialize_service_response (serialize_service_response
      { service_id := 77, server_node_id := ⟨[1, 2, 3, 4, 5, 6]⟩, status := 2 }) =
      some { service_id := 77, server_node_id := ⟨[1, 2, 3, 4, 5, 6]⟩, status := 2 } :=
  ⟨(C1_roundtrip.1 _ ⟨by norm_num, by norm_num, by norm_num, by norm_num⟩).2.mpr (by norm_num),
   C1_roundtrip.2 _ ⟨by norm_num, ⟨rfl, by decide⟩, by norm_num⟩⟩

/-- C2 counterexample: at the concrete request with `expiry_time = 1`, the
big-endian value of wire bytes 6-7 is 0, not `expiry_time mod 2^16 = 1`:
the serializer does not emit the low 16 bits there. -/
theorem C2_expiry_counterexample :
    ¬ ((serialize_service_request
          { service_type := .Storage, qos := ⟨0, 0, 0⟩, expiry_time := 1 }).getD 6 0 * 256 +
       (serialize_service_request
          { service_type := .Storage, qos := ⟨0, 0, 0⟩, expiry_time := 1 }).getD 7 0 =
       1 % 65536) := by
  decide

/-- C2 (amended): wire bytes 6-7 of a serialized ServiceRequest carry the HIGH
16 bits of the 32-bit expiry (big-endian value `expiry_time / 2^16`), byte 6
being `expiry_time / 2^24` and byte 7 `expiry_time / 2^16 mod 256`, and
`deserialize_service_request` reads them back into the high 16 bits of the
decoded expiry, yielding `expiry_time / 2^16 * 2^16`. -/
theorem C2_expiry_high_bits :
    ∀ r : ServiceRequest, r.WF →
      (serialize_service_request r).getD 6 0 = r.expiry_time / 16777216 ∧
      (serialize_service_request r).getD 7 0 = r.expiry_time / 65536 % 256 ∧
      (serialize_service_request r).getD 6 0 * 256 +
        (serialize_service_request r).getD 7 0 = r.expiry_time / 65536 ∧
      (deserialize_service_request (serialize_service_request r)).map
        (fun q => q.expiry_time) = some (r.expiry_time / 65536 * 65536) := by
  intro r h
  have hexp := h.2.2.2
  refine ⟨?_, ?_, ?_, ?_⟩
  · simp only [serialize_service_request, List.getD_cons_succ, List.getD_cons_zero]
    omega
  · rfl
  · simp only [serialize_service_request, List.getD_cons_succ, List.getD_cons_zero]
    omega
  · rw [roundtrip_request r h]
    rfl

/-- Witness for C2 at the concrete expiry 0x01020304: wire bytes 6-7 are
0x01, 0x02 — the high half 0x0102 — and the decode returns 0x01020000. -/
theorem C2_expiry_high_bits_witness :
    (serialize_service_request
      { service_type := .Storage, qos := ⟨0, 0, 0⟩, expiry_time := 16909060 }).getD 6 0 = 1 ∧
    (serialize_service_request
      { service_type := .Storage, qos := ⟨0, 0, 0⟩, expiry_time := 16909060 }).getD 7 0 = 2 ∧
    (deserialize_service_request (serialize_service_request
      { service_type := .Storage, qos := ⟨0, 0, 0⟩, expiry_time := 16909060 })).map
        (fun q => q.expiry_time) = some 16908288 := by
  have h := C2_expiry_high_bits
    { service_type := .Storage, qos := ⟨0, 0, 0⟩, expiry_time := 16909060 }
    ⟨by norm_num, by norm_num, by norm_num, by norm_num⟩
  exact ⟨by simpa using h.1, h.2.1, by simpa using h.2.2.2⟩

/-- C10: `deserialize_service_response` fails exactly on buffers shorter than
11 bytes; on any buffer of length at least 11 it succeeds and returns the
status byte (offset 10) as-is, with no validation of its value. -/
theorem C10_response_decode_length_only :
    ∀ buffer : List Nat,
      (deserialize_service_response buffer = none ↔ buffer.length < 11) ∧
      (11 ≤ buffer.length →
        ∃ r, deserialize_service_response buffer = some r ∧
          r.status = buffer.getD 10 0) := by
  intro buffer
  by_cases h : buffer.length < 11
  · constructor
    · simp [deserialize_service_response, h]
    · intro hc
      omega
  · constructor
    · simp [deserialize_service_response, h]
    · intro _
      simp only [deserialize_service_response, if_neg h]
      exact ⟨_, rfl, rfl⟩

/-- Witness for C10 at a concrete 11-byte buffer whose status byte is 99
(not one of the documented codes 0/1/2): decoding succeeds and returns 99. -/
theorem C10_response_decode_length_only_witness :
    ∃ r, deserialize_service_response [0, 0, 0, 7, 1, 2, 3, 4, 5, 6, 99] = some r ∧
      r.status = 99 :=
  (C10_response_decode_length_only [0, 0, 0, 7, 1, 2, 3, 4, 5, 6, 99]).2 (by norm_num)

/-- One inner-loop step of `calculate_checksum` (u16 arithmetic):
`crc = (crc << 1) ^ 0x1021` when bit 15 is set, else `crc = crc << 1`. -/
def crcStep (crc : Nat) : Nat :=
  if crc &&& 0x8000 ≠ 0 then (crc * 2 % 65536) ^^^ 0x1021 else crc * 2 % 65536

/-- `calculate_checksum` (`utils/checksum.rs`): CRC-16-CCITT, polynomial
0x1021, initial register 0xFFFF, MSB-first, no final XOR. Per byte:
`crc ^= (byte as u16) << 8` then eight `crcStep`s. -/
def calculate_checksum (data : List Nat) : Nat :=
  data.foldl (fun crc b => crcStep^[8] (crc ^^^ b % 256 * 256)) 0xFFFF

/-- `DataHeader` (`protocol/data.rs`), `#[repr(C, packed)]`. -/
structure DataHeader where
  version : Nat
  packet_type : Nat
  source : NodeId
  destination : NodeId
  packet_id : Nat
  total_fragments : Nat
  fragment_index : Nat
  data_length : Nat
  checksum : Nat
deriving DecidableEq

/-- The raw bytes of a packed `DataHeader` as read by
`core::slice::from_raw_parts` in `update_checksum`/`is_valid`: fields in
declaration order, multi-byte integers in the target's (little-endian)
in-memory layout, 22 bytes in total. -/
def headerBytes (h : DataHeader) : List Nat :=
  [h.version, h.packet_type] ++ h.source.bytes ++ h.destination.bytes ++
  [h.packet_id % 256, h.packet_id / 256 % 256,
   h.total_fragments, h.fragment_index,
   h.data_length % 256, h.data_length / 256 % 256,
   h.checksum % 256, h.checksum / 256 % 256]

/-- `DataPacket`: header plus (borrowed) payload bytes. -/
structure DataPacket where
  header : DataHeader
  data : List Nat
deriving DecidableEq

/-- `DataPacket::update_checksum`: zero the header checksum field, CRC the
header bytes and the payload bytes independently, store their XOR. -/
def DataPacket.update_checksum (p : DataPacket) : DataPacket :=
  let h0 := { p.header with checksum := 0 }
  { header := { h0 with checksum :=
      calculate_checksum (headerBytes h0) ^^^ calculate_checksum p.data },
    data := p.data }

/-- `DataPacket::is_valid`: recompute the two CRCs on a copy with the
checksum field zeroed and compare the XOR with the stored field. -/
def DataPacket.is_valid (p : DataPacket) : Bool :=
  calculate_checksum (headerBytes { p.header with checksum := 0 }) ^^^
    calculate_checksum p.data == p.header.checksum

/-- `DataPacket::new`: builds the header (version 1, type Data = 2,
total_fragments 1, fragment_index 0, data_length = payload length) and calls
`update_checksum`. The Rust function begins with
`assert!(data.len() <= MAX_PACKET_SIZE - size_of::<DataHeader>())`, i.e.
`data.len() <= 256 - 22 = 234`; `none` here models that assertion panicking. -/
def DataPacket.new (source destination : NodeId) (packet_id : Nat)
    (data : List Nat) : Option DataPacket :=
  if data.length ≤ 234 then
    some (DataPacket.update_checksum
      { header := { version := 1, packet_type := 2,
                    source := source, destination := destination,
                    packet_id := packet_id, total_fragments := 1,
                    fragment_index := 0, data_length := data.length,
                    checksum := 0 },
        data := data })
  else none

set_option maxRecDepth 16384 in
/-- C3: `update_checksum` stores exactly the XOR of the CRC-16-CCITT of the
header bytes (checksum field zeroed) with the CRC-16-CCITT of the payload,
touching nothing else; `is_valid` is true exactly when that recomputed XOR
equals the stored checksum; hence a freshly checksummed packet validates.
The final conjuncts pin the CRC definition to the standard CRC-16/CCITT-FALSE
check value (0x29B1 over the ASCII bytes of "123456789") and record that the
CRC of [1,2,3,4,5] is 0x9304 (the repository's `test_checksum` hardcodes the
stale expected value 0x5BCA for this input, so that unit test does not match
its own implementation; the implementation, which is authoritative here, is
the genuine CRC-16-CCITT the claim describes). -/
theorem C3_data_checksum :
    (∀ p : DataPacket,
      p.update_checksum.header.checksum =
        calculate_checksum (headerBytes { p.header with checksum := 0 }) ^^^
          calculate_checksum p.data ∧
      p.update_checksum.data = p.data ∧
      { p.update_checksum.header with checksum := 0 } =
        { p.header with checksum := 0 } ∧
      (p.is_valid = true ↔
        calculate_checksum (headerBytes { p.header with checksum := 0 }) ^^^
          calculate_checksum p.data = p.header.checksum) ∧
      p.update_checksum.is_valid = true) ∧
    calculate_checksum [49, 50, 51, 52, 53, 54, 55, 56, 57] = 0x29B1 ∧
    calculate_checksum [1, 2, 3, 4, 5] = 0x9304 := by
  refine ⟨fun p => ⟨rfl, rfl, rfl, ?_, ?_⟩, by decide, by decide⟩
  · simp [DataPacket.is_valid]
  · simp [DataPacket.is_valid, DataPacket.update_checksum]

/-- `RouteEntry` (`routing/dynamic_forwarding.rs`): destination, next hop,
signed metric, timestamp. -/
structure RouteEntry where
  destination : NodeId
  next_hop : NodeId
  metric : Int
  timestamp : Nat
deriving DecidableEq

/-- `ForwardingEngine`: local node id, 32 optional route slots, route count,
and the internal `cleanup_timer` (which no operation ever advances). -/
structure ForwardingEngine where
  node_id : NodeId
  routes : List (Option RouteEntry)
  route_count : Nat
  cleanup_timer : Nat
deriving DecidableEq

/-- `ForwardingEngine::new`. -/
def ForwardingEngine.new (node_id : NodeId) : ForwardingEngine :=
  { node_id := node_id, routes := List.replicate 32 none,
    route_count := 0, cleanup_timer := 0 }

/-- u64 subtraction as it evaluates in a release build (wrapping). -/
def wsub64 (a b : Nat) : Nat :=
  (a % 18446744073709551616 +
    (18446744073709551616 - b % 18446744073709551616)) % 18446744073709551616

/-- The expiry test of `cleanup`: `current_time - route.timestamp > 300_000`. -/
def routeExpired (current_time : Nat) (r : RouteEntry) : Bool :=
  decide (wsub64 current_time r.timestamp > 300000)

/-- What one iteration of the `cleanup` loop leaves in a slot. -/
def cleanupSlot (current_time : Nat) : Option RouteEntry → Option RouteEntry
  | some r => if routeExpired current_time r then none else some r
  | none => none

/-- Whether a slot holds an expired route (the loop decrements `route_count`
once for each such slot). -/
def expiredSlot (current_time : Nat) : Option RouteEntry → Bool
  | some r => routeExpired current_time r
  | none => false

/-- `ForwardingEngine::cleanup`: clear every slot older than 5 minutes,
decrementing `route_count` per cleared slot. -/
def ForwardingEngine.cleanup (e : ForwardingEngine) (current_time : Nat) :
    ForwardingEngine :=
  { e with
    routes := e.routes.map (cleanupSlot current_time),
    route_count := e.route_count - e.routes.countP (expiredSlot current_time) }

/-- `ForwardingEngine::find_free_slot`: first empty slot. -/
def ForwardingEngine.find_free_slot (e : ForwardingEngine) : Option Nat :=
  e.routes.findIdx? (fun o => o.isNone)

/-- The predicate of `find_route`'s `position` closure. -/
def matchSlot (destination : NodeId) : Option RouteEntry → Bool
  | some r => r.destination == destination
  | none => false

/-- `ForwardingEngine::find_route`: first slot whose entry has the given
destination. -/
def ForwardingEngine.find_route (e : ForwardingEngine) (destination : NodeId) :
    Option Nat :=
  e.routes.findIdx? (matchSlot destination)

/-- `ForwardingEngine::update_route` (`impl RoutingTable`): no-op for the
local id; refresh an existing entry's metric and timestamp; else insert into
a free slot with `next_hop = destination`; else overwrite slot 0. Timestamps
come from the internal `cleanup_timer`. -/
def ForwardingEngine.update_route (e : ForwardingEngine) (destination : NodeId)
    (metric : Int) : ForwardingEngine :=
  if destination = e.node_id then e
  else
    let current_time := e.cleanup_timer
    match e.find_route destination with
    | some index =>
      let updated := (e.routes.getD index none).map
        (fun r => { r with metric := metric, timestamp := current_time })
      { e with routes := e.routes.set index updated }
    | none =>
      let fresh : Option RouteEntry :=
        some { destination := destination, next_hop := destination,
               metric := metric, timestamp := current_time }
      match e.find_free_slot with
      | some index =>
        { e with routes := e.routes.set index fresh,
                 route_count := e.route_count + 1 }
      | none =>
        { e with routes := e.routes.set 0 fresh }

/-- `ForwardingEngine::get_next_hop`. -/
def ForwardingEngine.get_next_hop (e : ForwardingEngine) (destination : NodeId) :
    Option NodeId :=
  match e.find_route destination with
  | some index => (e.routes.getD index none).map (fun r => r.next_hop)
  | none => none

/-- `ForwardingEngine::remove_route`. -/
def ForwardingEngine.remove_route (e : ForwardingEngine) (destination : NodeId) :
    ForwardingEngine :=
  match e.find_route destination with
  | some index =>
    { e with routes := e.routes.set index none, route_count := e.route_count - 1 }
  | none => e

/-- `ForwardingEngine::clear`. -/
def ForwardingEngine.clear (e : ForwardingEngine) : ForwardingEngine :=
  { e with routes := e.routes.map (fun _ => none), route_count := 0 }

/-- The single-hop slot invariant: an occupied slot maps a destination to
itself as next hop, and never stores the engine's own node id. -/
def goodSlot (node_id : NodeId) : Option RouteEntry → Prop
  | none => True
  | some r => r.next_hop = r.destination ∧ r.destination ≠ node_id

instance (node_id : NodeId) (o : Option RouteEntry) : Decidable (goodSlot node_id o) := by
  cases o with
  | none => exact isTrue trivial
  | some r =>
    exact inferInstanceAs (Decidable (r.next_hop = r.destination ∧ r.destination ≠ node_id))

/-- The routing-table invariant of claim C4, over every slot. -/
def ForwardingEngine.Inv (e : ForwardingEngine) : Prop :=
  ∀ o ∈ e.routes, goodSlot e.node_id o

instance (e : ForwardingEngine) : Decidable e.Inv :=
  inferInstanceAs (Decidable (∀ o ∈ e.routes, goodSlot e.node_id o))

/-- Engine states reachable from `new` through the `RoutingTable` operations. -/
inductive Reachable : ForwardingEngine → Prop
  | new (id : NodeId) : Reachable (ForwardingEngine.new id)
  | update_route (e : ForwardingEngine) (d : NodeId) (m : Int) :
      Reachable e → Reachable (e.update_route d m)
  | remove_route (e : ForwardingEngine) (d : NodeId) :
      Reachable e → Reachable (e.remove_route d)
  | cleanup (e : ForwardingEngine) (t : Nat) :
      Reachable e → Reachable (e.cleanup t)
  | clear (e : ForwardingEngine) : Reachable e → Reachable e.clear

lemma findIdx?_cons_eq {α : Type} (p : α → Bool) (a : α) (l : List α) :
    (a :: l).findIdx? p =
      if p a then some 0 else (l.findIdx? p).map (· + 1) := by
  simp [List.findIdx?_cons]

lemma findIdx?_some_spec {α : Type} (p : α → Bool) (d : α) :
    ∀ (l : List α) (i : Nat), l.findIdx? p = some i →
      i < l.length ∧ p (l.getD i d) = true := by
  intro l
  induction l with
  | nil => intro i h; simp [List.findIdx?_nil] at h
  | cons a l ih =>
    intro i h
    rw [findIdx?_cons_eq] at h
    by_cases hp : p a
    · simp only [hp, if_pos] at h
      cases h
      exact ⟨Nat.succ_pos _, hp⟩
    · simp only [hp, if_neg, Bool.false_eq_true, not_false_iff] at h
      rcases Option.map_eq_some'.mp h with ⟨j, hj, rfl⟩
      obtain ⟨hlt, hpj⟩ := ih j hj
      exact ⟨Nat.succ_lt_succ hlt, hpj⟩

lemma mem_of_getD_some {α : Type} {l : List α} {i : Nat} {d a : α}
    (hlt : i < l.length) (h : l.getD i d = a) : a ∈ l := by
  subst h
  rw [List.getD_eq_getElem l d hlt]
  exact List.getElem_mem hlt

lemma getD_set_ne {α : Type} (l : List α) (i j : Nat) (v d : α) (h : i ≠ j) :
    (l.set i v).getD j d = l.getD j d := by
  induction l generalizing i j with
  | nil => rfl
  | cons a l ih =>
    cases i with
    | zero => cases j with
      | zero => omega
      | succ j => rfl
    | succ i => cases j with
      | zero => rfl
      | succ j => exact ih i j (by omega)

lemma countP_set_add_one {α : Type} (p : α → Bool) (l : List α) (i : Nat) (v d : α)
    (hlt : i < l.length) (hold : p (l.getD i d) = false) (hnew : p v = true) :
    (l.set i v).countP p = l.countP p + 1 := by
  induction l generalizing i with
  | nil => simp at hlt
  | cons a l ih =>
    cases i with
    | zero =>
      simp only [List.getD_cons_zero] at hold
      simp [List.set, List.countP_cons, hold, hnew]
    | succ i =>
      simp only [List.getD_cons_succ] at hold
      simp only [List.set, List.countP_cons, ih i (by simpa using hlt) hold]
      omega

lemma countP_set_same {α : Type} (p : α → Bool) (l : List α) (i : Nat) (v d : α)
    (hold : p (l.getD i d) = true) (hnew : p v = true) :
    (l.set i v).countP p = l.countP p := by
  induction l generalizing i with
  | nil => rfl
  | cons a l ih =>
    cases i with
    | zero =>
      simp only [List.getD_cons_zero] at hold
      simp [List.set, List.countP_cons, hold, hnew]
    | succ i =>
      simp only [List.getD_cons_succ] at hold
      simp [List.set, List.countP_cons, ih i hold]

lemma countP_set_sub_one {α : Type} (p : α → Bool) (l : List α) (i : Nat) (v d : α)
    (hlt : i < l.length) (hold : p (l.getD i d) = true) (hnew : p v = false) :
    (l.set i v).countP p + 1 = l.countP p := by
  induction l generalizing i with
  | nil => simp at hlt
  | cons a l ih =>
    cases i with
    | zero =>
      simp only [List.getD_cons_zero] at hold
      simp [List.set, List.countP_cons, hold, hnew]
    | succ i =>
      simp only [List.getD_cons_succ] at hold
      simp only [List.set, List.countP_cons, ← ih i (by simpa using hlt) hold]
      omega

lemma countP_cleanup_map (t : Nat) (l : List (Option RouteEntry)) :
    (l.map (cleanupSlot t)).countP (fun o => o.isSome) +
      l.countP (expiredSlot t) = l.countP (fun o => o.isSome) := by
  induction l with
  | nil => rfl
  | cons o l ih =>
    cases o with
    | none => simpa [List.countP_cons, cleanupSlot, expiredSlot] using ih
    | some r =>
      by_cases hx : routeExpired t r
      · simp only [List.map_cons, List.countP_cons, cleanupSlot, expiredSlot, hx,
          if_true, Option.isSome_none, Option.isSome_some, if_false,
          Bool.false_eq_true, if_true]
        omega
      · simp only [List.map_cons, List.countP_cons, cleanupSlot, expiredSlot, hx,
          Option.isSome_none, Option.isSome_some, Bool.false_eq_true, if_false,
          if_true]
        omega

lemma inv_new (id : NodeId) : (ForwardingEngine.new id).Inv := by
  intro o ho
  have := List.eq_of_mem_replicate ho
  subst this
  trivial

lemma inv_update (e : ForwardingEngine) (d : NodeId) (m : Int) (h : e.Inv) :
    (e.update_route d m).Inv := by
  unfold ForwardingEngine.update_route
  by_cases hd : d = e.node_id
  · simpa [hd] using h
  · simp only [hd, if_neg, not_false_iff]
    cases hfr : e.find_route d with
    | some index =>
      simp only [hfr]
      intro o ho
      rcases List.mem_or_eq_of_mem_set ho with hmem | rfl
      · exact h o hmem
      · cases hg : e.routes.getD index none with
        | none => simp [hg, goodSlot]
        | some r =>
          have hlt := (findIdx?_some_spec (matchSlot d) none e.routes index hfr).1
          have hr : goodSlot e.node_id (some r) := h _ (mem_of_getD_some hlt hg)
          obtain ⟨h1, h2⟩ := hr
          simp only [hg, Option.map_some]
          exact ⟨h1, h2⟩
    | none =>
      simp only [hfr]
      cases hfs : e.find_free_slot with
      | some index =>
        simp only [hfs]
        intro o ho
        rcases List.mem_or_eq_of_mem_set ho with hmem | rfl
        · exact h o hmem
        · exact ⟨rfl, hd⟩
      | none =>
        simp only [hfs]
        intro o ho
        rcases List.mem_or_eq_of_mem_set ho with hmem | rfl
        · exact h o hmem
        · exact ⟨rfl, hd⟩

lemma inv_remove (e : ForwardingEngine) (d : NodeId) (h : e.Inv) :
    (e.remove_route d).Inv := by
  unfold ForwardingEngine.remove_route
  cases hfr : e.find_route d with
  | some index =>
    intro o ho
    rcases List.mem_or_eq_of_mem_set ho with hmem | rfl
    · exact h o hmem
    · trivial
  | none => exact h

lemma inv_cleanup (e : ForwardingEngine) (t : Nat) (h : e.Inv) :
    (e.cleanup t).Inv := by
  intro o ho
  rcases List.mem_map.mp ho with ⟨a, ha, rfl⟩
  cases a with
  | none => trivial
  | some r =>
    have := h _ ha
    by_cases hx : routeExpired t r
    · simp [cleanupSlot, hx, goodSlot]
    · simpa [cleanupSlot, hx] using this

lemma inv_clear (e : ForwardingEngine) (_h : e.Inv) : e.clear.Inv := by
  intro o ho
  rcases List.mem_map.mp ho with ⟨a, ha, rfl⟩
  trivial

lemma update_route_self (e : ForwardingEngine) (m : Int) :
    e.update_route e.node_id m = e := by
  simp [ForwardingEngine.update_route]

/-- C4: the single-hop invariant — every occupied slot has
`next_hop = destination` and never the engine's own node id — holds for the
empty table and is preserved by `update_route`, `remove_route`, `cleanup`
and `clear`; moreover `update_route` on the local id is the identity. -/
theorem C4_routing_invariant :
    (∀ id : NodeId, (ForwardingEngine.new id).Inv) ∧
    (∀ (e : ForwardingEngine) (d : NodeId) (m : Int), e.Inv → (e.update_route d m).Inv) ∧
    (∀ (e : ForwardingEngine) (d : NodeId), e.Inv → (e.remove_route d).Inv) ∧
    (∀ (e : ForwardingEngine) (t : Nat), e.Inv → (e.cleanup t).Inv) ∧
    (∀ e : ForwardingEngine, e.Inv → e.clear.Inv) ∧
    (∀ (e : ForwardingEngine) (m : Int), e.update_route e.node_id m = e) :=
  ⟨inv_new, inv_update, inv_remove, inv_cleanup, inv_clear, update_route_self⟩

/-- Witness for C4 on concrete data: inserting a route into a fresh engine
preserves the invariant, and updating the engine's own id changes nothing. -/
theorem C4_routing_invariant_witness :
    ((ForwardingEngine.new ⟨[1, 1, 1, 1, 1, 1]⟩).update_route ⟨[2, 2, 2, 2, 2, 2]⟩ 5).Inv ∧
    (ForwardingEngine.new ⟨[1, 1, 1, 1, 1, 1]⟩).update_route ⟨[1, 1, 1, 1, 1, 1]⟩ 7 =
      ForwardingEngine.new ⟨[1, 1, 1, 1, 1, 1]⟩ :=
  ⟨C4_routing_invariant.2.1 _ _ _ (by decide),
   C4_routing_invariant.2.2.2.2.2 (ForwardingEngine.new ⟨[1, 1, 1, 1, 1, 1]⟩) 7⟩

/-- C7: on a full 32-slot table with no entry for the (non-local) destination,
`update_route` overwrites slot 0 with the new single-hop entry stamped with
the internal timer; `route_count`, the table length, and every other slot are
unchanged. -/
theorem C7_full_table_overwrites_slot0 :
    ∀ (e : ForwardingEngine) (d : NodeId) (m : Int),
      e.routes.length = 32 →
      (∀ o ∈ e.routes, o.isSome = true) →
      (∀ o ∈ e.routes, matchSlot d o = false) →
      d ≠ e.node_id →
      (e.update_route d m).routes.getD 0 none =
        some { destination := d, next_hop := d, metric := m,
               timestamp := e.cleanup_timer } ∧
      (e.update_route d m).route_count = e.route_count ∧
      (e.update_route d m).routes.length = 32 ∧
      (e.update_route d m).node_id = e.node_id ∧
      (e.update_route d m).cleanup_timer = e.cleanup_timer ∧
      ∀ i, 0 < i → (e.update_route d m).routes.getD i none = e.routes.getD i none := by
  intro e d m hlen hfull hnomatch hd
  have hfr : e.find_route d = none :=
    List.findIdx?_eq_none_iff.mpr hnomatch
  have hfs : e.find_free_slot = none := by
    refine List.findIdx?_eq_none_iff.mpr ?_
    intro o ho
    cases o with
    | none => exact absurd (hfull none ho) (by simp)
    | some r => rfl
  have hne : d = e.node_id → False := fun hc => hd hc
  have hres : e.update_route d m =
      { e with routes := e.routes.set 0 (some (RouteEntry.mk d d m e.cleanup_timer)) } := by
    unfold ForwardingEngine.update_route
    simp only [hd, if_neg, not_false_iff, hfr, hfs]
  rw [hres]
  refine ⟨?_, rfl, by simpa using hlen, rfl, rfl, ?_⟩
  · rcases he : e.routes with _ | ⟨a, l⟩
    · rw [he] at hlen; simp at hlen
    · rfl
  · intro i hi
    exact getD_set_ne e.routes 0 i _ none (by omega)

/-- Witness for C7: a concrete engine whose 32 slots are all occupied by
other destinations; the insert lands in slot 0, the count stays 32 and
slot 1 is untouched. -/
theorem C7_full_table_overwrites_slot0_witness :
    (({ node_id := ⟨[7, 7, 7, 7, 7, 7]⟩,
        routes := (List.range 32).map
          (fun k => some { destination := ⟨[k, 0, 0, 0, 0, 0]⟩,
                           next_hop := ⟨[k, 0, 0, 0, 0, 0]⟩,
                           metric := 0, timestamp := 0 }),
        route_count := 32, cleanup_timer := 0 } :
      ForwardingEngine).update_route ⟨[9, 9, 9, 9, 9, 9]⟩ 5).routes.getD 0 none =
        some { destination := ⟨[9, 9, 9, 9, 9, 9]⟩, next_hop := ⟨[9, 9, 9, 9, 9, 9]⟩,
               metric := 5, timestamp := 0 } ∧
    (({ node_id := ⟨[7, 7, 7, 7, 7, 7]⟩,
        routes := (List.range 32).map
          (fun k => some { destination := ⟨[k, 0, 0, 0, 0, 0]⟩,
                           next_hop := ⟨[k, 0, 0, 0, 0, 0]⟩,
                           metric := 0, timestamp := 0 }),
        route_count := 32, cleanup_timer := 0 } :
      ForwardingEngine).update_route ⟨[9, 9, 9, 9, 9, 9]⟩ 5).route_count = 32 := by
  have h := C7_full_table_overwrites_slot0
    { node_id := ⟨[7, 7, 7, 7, 7, 7]⟩,
      routes := (List.range 32).map
        (fun k => some { destination := ⟨[k, 0, 0, 0, 0, 0]⟩,
                         next_hop := ⟨[k, 0, 0, 0, 0, 0]⟩,
                         metric := 0, timestamp := 0 }),
      route_count := 32, cleanup_timer := 0 }
    ⟨[9, 9, 9, 9, 9, 9]⟩ 5 (by decide) (by decide) (by decide) (by decide)
  exact ⟨h.1, h.2.1⟩

lemma countP_isSome_map_none (l : List (Option RouteEntry)) :
    (l.map (fun _ => (none : Option RouteEntry))).countP (fun o => o.isSome) = 0 := by
  induction l with
  | nil => rfl
  | cons a l ih => simp [List.countP_cons, ih]

/-- State invariant of every reachable engine: the internal `cleanup_timer`
is still 0 (no operation ever advances it), hence every stored route entry is
stamped with timestamp 0, and `route_count` counts the occupied slots. -/
lemma reachable_state_inv (e : ForwardingEngine) (h : Reachable e) :
    e.cleanup_timer = 0 ∧
    (∀ o ∈ e.routes, ∀ r, o = some r → r.timestamp = 0) ∧
    e.route_count = e.routes.countP (fun o => o.isSome) := by
  induction h with
  | new id =>
    refine ⟨rfl, ?_, ?_⟩
    · intro o ho r hr
      rw [List.eq_of_mem_replicate ho] at hr
      cases hr
    · exact (by decide :
        (0 : Nat) = List.countP (fun o : Option RouteEntry => o.isSome)
          (List.replicate 32 none))
  | update_route e d m _ ih =>
    obtain ⟨h1, h2, h3⟩ := ih
    unfold ForwardingEngine.update_route
    by_cases hd : d = e.node_id
    · simp only [hd, if_pos]
      exact ⟨h1, h2, h3⟩
    · simp only [hd, if_neg, not_false_iff]
      cases hfr : e.find_route d with
      | some index =>
        simp only [hfr]
        obtain ⟨hlt, hp⟩ := findIdx?_some_spec (matchSlot d) none e.routes index hfr
        cases hg : e.routes.getD index none with
        | none => rw [hg] at hp; cases hp
        | some r =>
          refine ⟨h1, ?_, ?_⟩
          · intro o ho r2 hr2
            rcases List.mem_or_eq_of_mem_set ho with hmem | rfl
            · exact h2 o hmem r2 hr2
            · simp only [Option.map_some', Option.some.injEq] at hr2
              subst hr2
              exact h1
          · have hcs := countP_set_same (fun o : Option RouteEntry => o.isSome)
              e.routes index
              (Option.map (fun r => { r with metric := m, timestamp := e.cleanup_timer })
                (some r))
              none (by rw [hg]; rfl) rfl
            rw [hcs]
            exact h3
      | none =>
        simp only [hfr]
        cases hfs : e.find_free_slot with
        | some index =>
          simp only [hfs]
          have hfs2 : e.routes.findIdx? (fun o => o.isNone) = some index := by
            unfold ForwardingEngine.find_free_slot at hfs
            exact hfs
          obtain ⟨hlt, hp⟩ := findIdx?_some_spec (fun o => o.isNone) none e.routes index hfs2
          have hg : e.routes.getD index none = none := by
            cases hgg : e.routes.getD index none with
            | none => rfl
            | some r => rw [hgg] at hp; cases hp
          refine ⟨h1, ?_, ?_⟩
          · intro o ho r2 hr2
            rcases List.mem_or_eq_of_mem_set ho with hmem | rfl
            · exact h2 o hmem r2 hr2
            · cases hr2
              exact h1
          · have hadd := countP_set_add_one (fun o : Option RouteEntry => o.isSome)
              e.routes index
              (some (RouteEntry.mk d d m e.cleanup_timer)) none hlt
              (by rw [hg]; rfl) rfl
            rw [hadd, h3]
        | none =>
          simp only [hfs]
          have hfs2 : e.routes.findIdx? (fun o => o.isNone) = none := by
            unfold ForwardingEngine.find_free_slot at hfs
            exact hfs
          have hall := List.findIdx?_eq_none_iff.mp hfs2
          refine ⟨h1, ?_, ?_⟩
          · intro o ho r2 hr2
            rcases List.mem_or_eq_of_mem_set ho with hmem | rfl
            · exact h2 o hmem r2 hr2
            · cases hr2
              exact h1
          · rcases hre : e.routes with _ | ⟨a, l⟩
            · rw [hre] at h3
              exact h3
            · have ha : a.isSome = true := by
                have := hall a (by rw [hre]; exact List.mem_cons_self a l)
                cases a with
                | none => simp at this
                | some r => rfl
              have hcs := countP_set_same (fun o : Option RouteEntry => o.isSome)
                (a :: l) 0
                (some (RouteEntry.mk d d m e.cleanup_timer)) none
                (by simpa using ha) rfl
              rw [hcs, ← hre]
              exact h3
  | remove_route e d _ ih =>
    obtain ⟨h1, h2, h3⟩ := ih
    unfold ForwardingEngine.remove_route
    cases hfr : e.find_route d with
    | some index =>
      obtain ⟨hlt, hp⟩ := findIdx?_some_spec (matchSlot d) none e.routes index hfr
      have hsome : (e.routes.getD index none).isSome = true := by
        cases hg : e.routes.getD index none with
        | none => rw [hg] at hp; cases hp
        | some r => rfl
      refine ⟨h1, ?_, ?_⟩
      · intro o ho r2 hr2
        rcases List.mem_or_eq_of_mem_set ho with hmem | rfl
        · exact h2 o hmem r2 hr2
        · cases hr2
      · have hsub := countP_set_sub_one (fun o => o.isSome) e.routes index none none
          hlt hsome rfl
        dsimp only
        omega
    | none => exact ⟨h1, h2, h3⟩
  | cleanup e t _ ih =>
    obtain ⟨h1, h2, h3⟩ := ih
    refine ⟨h1, ?_, ?_⟩
    · intro o ho r2 hr2
      rcases List.mem_map.mp ho with ⟨a, ha, rfl⟩
      cases a with
      | none => cases hr2
      | some r =>
        by_cases hx : routeExpired t r
        · simp [cleanupSlot, hx] at hr2
        · simp only [cleanupSlot, hx, Bool.false_eq_true, if_false] at hr2
          exact h2 _ ha r2 hr2
    · have hmap := countP_cleanup_map t e.routes
      dsimp only [ForwardingEngine.cleanup]
      omega
  | clear e _ ih =>
    obtain ⟨h1, h2, h3⟩ := ih
    refine ⟨h1, ?_, ?_⟩
    · intro o ho r2 hr2
      rcases List.mem_map.mp ho with ⟨a, ha, rfl⟩
      cases hr2
    · exact (countP_isSome_map_none e.routes).symm

/-- C9: on every reachable engine state the internal stamping clock is still
0 and every stored route has timestamp 0, so `cleanup t` with any
`t > 300000` (a u64) clears every slot and drops `route_count` to 0 — no
matter how recently `update_route` refreshed the entries. -/
theorem C9_cleanup_empties_reachable_tables :
    ∀ (e : ForwardingEngine) (t : Nat), Reachable e →
      300000 < t → t < 18446744073709551616 →
      e.cleanup_timer = 0 ∧
      (∀ o ∈ e.routes, ∀ r, o = some r → r.timestamp = 0) ∧
      (∀ o ∈ (e.cleanup t).routes, o = none) ∧
      (e.cleanup t).route_count = 0 := by
  intro e t hre ht1 ht2
  obtain ⟨h1, h2, h3⟩ := reachable_state_inv e hre
  have hexp : ∀ o ∈ e.routes, ∀ r, o = some r → routeExpired t r = true := by
    intro o ho r hr
    have hts := h2 o ho r hr
    simp only [routeExpired, wsub64, hts, decide_eq_true_eq]
    omega
  refine ⟨h1, h2, ?_, ?_⟩
  · intro o ho
    rcases List.mem_map.mp ho with ⟨a, ha, rfl⟩
    cases a with
    | none => rfl
    | some r =>
      have := hexp _ ha r rfl
      simp [cleanupSlot, this]
  · have hmap := countP_cleanup_map t e.routes
    have heq : e.routes.countP (expiredSlot t) = e.routes.countP (fun o => o.isSome) := by
      apply List.countP_congr
      intro a ha
      cases a with
      | none => simp [expiredSlot]
      | some r =>
        have := hexp _ ha r rfl
        simp [expiredSlot, this]
    dsimp only [ForwardingEngine.cleanup]
    omega

/-- Witness for C9: a fresh engine with one just-inserted route, cleaned up at
t = 300001 ms, ends with an all-empty table and count 0. -/
theorem C9_cleanup_empties_reachable_tables_witness :
    (((ForwardingEngine.new ⟨[1, 1, 1, 1, 1, 1]⟩).update_route
        ⟨[2, 2, 2, 2, 2, 2]⟩ 5).cleanup 300001).route_count = 0 ∧
    ∀ o ∈ (((ForwardingEngine.new ⟨[1, 1, 1, 1, 1, 1]⟩).update_route
        ⟨[2, 2, 2, 2, 2, 2]⟩ 5).cleanup 300001).routes, o = none := by
  have h := C9_cleanup_empties_reachable_tables
    ((ForwardingEngine.new ⟨[1, 1, 1, 1, 1, 1]⟩).update_route ⟨[2, 2, 2, 2, 2, 2]⟩ 5)
    300001
    (Reachable.update_route _ _ _ (Reachable.new ⟨[1, 1, 1, 1, 1, 1]⟩))
    (by norm_num) (by norm_num)
  exact ⟨h.2.2.2, h.2.2.1⟩

/-- `Capabilities` (`directory/service_directory.rs`): u16/u16/u8/u8 fields. -/
structure Capabilities where
  max_bandwidth : Nat
  min_latency : Nat
  reliability : Nat
  battery_level : Nat
deriving DecidableEq

/-- `ServiceMetrics`: u8 success rate, u16 response time, i8 signal. -/
structure ServiceMetrics where
  success_rate : Nat
  avg_response_time : Nat
  signal_strength : Int
deriving DecidableEq

/-- `ServiceEntry`. -/
structure ServiceEntry where
  node_id : NodeId
  service_type : ServiceType
  load : Nat
  capabilities : Capabilities
  last_update_time : Nat
  metrics : ServiceMetrics
deriving DecidableEq

/-- The `signal_factor` bucket of `ServiceEntry::score` (i8 signal, dBm). -/
def signalFactor (signal_strength : Int) : Nat :=
  if signal_strength > -60 then 5
  else if signal_strength > -75 then 3
  else if signal_strength > -90 then 1
  else 0

/-- `ServiceEntry::score`: early 0 returns on each failed hard QoS bound,
then additive scoring. u16 arithmetic is made explicit: every `+=`/`*` is
reduced `% 65536` where the Rust u16 could wrap, `load` and `battery_level`
are u8 values (`% 256`), and `100 - load as u16` is the u16 wrapping
subtraction `(100 + 65536 - load) % 65536`. -/
def ServiceEntry.score (e : ServiceEntry) (qos : QosRequirements) : Nat :=
  if qos.min_bandwidth ≤ e.capabilities.max_bandwidth then
    let s1 := 40 * (1 + min (e.capabilities.max_bandwidth - qos.min_bandwidth) 1000 / 100) % 65536
    if e.capabilities.min_latency ≤ qos.max_latency then
      let s2 := (s1 + 30 * (1 + min (qos.max_latency - e.capabilities.min_latency) 500 / 50) % 65536) % 65536
      if qos.reliability ≤ e.capabilities.reliability then
        let s3 := (s2 + 20 * (1 + min (e.capabilities.reliability - qos.reliability) 50 / 10) % 65536) % 65536
        let s4 := (s3 + 10 * ((100 + 65536 - e.load % 256) % 65536) % 65536 / 10) % 65536
        let s5 := (s4 + 5 * (e.capabilities.battery_level % 256) % 65536 / 10) % 65536
        (s5 + signalFactor e.metrics.signal_strength) % 65536
      else 0
    else 0
  else 0

/-- `NetworkServiceDirectory`: 32 optional service slots plus bookkeeping. -/
structure NetworkServiceDirectory where
  services : List (Option ServiceEntry)
  service_count : Nat
  last_cleanup_time : Nat
deriving DecidableEq

/-- The scan loop of `find_best_service`, carrying the running best entry and
best score (`service.score(qos)` is pure, so recomputing it is harmless). -/
def findBestAux (st : ServiceType) (qos : QosRequirements) :
    List (Option ServiceEntry) → Option ServiceEntry → Nat → Option ServiceEntry
  | [], best, _ => best
  | o :: rest, best, bestScore =>
    match o with
    | some s =>
      if s.service_type = st then
        if s.score qos > bestScore then findBestAux st qos rest (some s) (s.score qos)
        else findBestAux st qos rest best bestScore
      else findBestAux st qos rest best bestScore
    | none => findBestAux st qos rest best bestScore

/-- `NetworkServiceDirectory::find_best_service`: scan all slots of the
requested type, keep the entry with the strictly highest score, starting
from `best_score = 0`. -/
def NetworkServiceDirectory.find_best_service (d : NetworkServiceDirectory)
    (st : ServiceType) (qos : QosRequirements) : Option ServiceEntry :=
  findBestAux st qos d.services none 0

/-- Spec-side definition (from the spec's words, for comparison with the
scan): the maximum score among entries of the requested type. -/
def specMaxScore (st : ServiceType) (qos : QosRequirements) :
    List (Option ServiceEntry) → Nat
  | [] => 0
  | o :: rest =>
    match o with
    | some s =>
      if s.service_type = st then max (s.score qos) (specMaxScore st qos rest)
      else specMaxScore st qos rest
    | none => specMaxScore st qos rest

/-- Spec-side definition: the first entry of the requested type, in slot-scan
order, whose score is exactly `v`. -/
def specFirstAt (st : ServiceType) (qos : QosRequirements) (v : Nat) :
    List (Option ServiceEntry) → Option ServiceEntry
  | [] => none
  | o :: rest =>
    match o with
    | some s =>
      if s.service_type = st ∧ s.score qos = v then some s
      else specFirstAt st qos v rest
    | none => specFirstAt st qos v rest

lemma score_spec (e : ServiceEntry) (qos : QosRequirements) :
    (0 < e.score qos ↔
      qos.min_bandwidth ≤ e.capabilities.max_bandwidth ∧
      e.capabilities.min_latency ≤ qos.max_latency ∧
      qos.reliability ≤ e.capabilities.reliability) ∧
    e.score qos < 65536 := by
  have hs : signalFactor e.metrics.signal_strength ≤ 5 := by
    unfold signalFactor
    split_ifs <;> omega
  simp only [ServiceEntry.score]
  by_cases h1 : qos.min_bandwidth ≤ e.capabilities.max_bandwidth
  · by_cases h2 : e.capabilities.min_latency ≤ qos.max_latency
    · by_cases h3 : qos.reliability ≤ e.capabilities.reliability
      · simp only [h1, h2, h3, if_true, iff_true, true_and, and_true]
        rw [Nat.mod_eq_of_lt (show
          40 * (1 + min (e.capabilities.max_bandwidth - qos.min_bandwidth) 1000 / 100)
            < 65536 by omega)]
        rw [Nat.mod_eq_of_lt (show
          30 * (1 + min (qos.max_latency - e.capabilities.min_latency) 500 / 50)
            < 65536 by omega)]
        rw [Nat.mod_eq_of_lt (show
          40 * (1 + min (e.capabilities.max_bandwidth - qos.min_bandwidth) 1000 / 100) +
          30 * (1 + min (qos.max_latency - e.capabilities.min_latency) 500 / 50)
            < 65536 by omega)]
        rw [Nat.mod_eq_of_lt (show
          20 * (1 + min (e.capabilities.reliability - qos.reliability) 50 / 10)
            < 65536 by omega)]
        rw [Nat.mod_eq_of_lt (show
          40 * (1 + min (e.capabilities.max_bandwidth - qos.min_bandwidth) 1000 / 100) +
          30 * (1 + min (qos.max_latency - e.capabilities.min_latency) 500 / 50) +
          20 * (1 + min (e.capabilities.reliability - qos.reliability) 50 / 10)
            < 65536 by omega)]
        rw [Nat.mod_eq_of_lt (show
          40 * (1 + min (e.capabilities.max_bandwidth - qos.min_bandwidth) 1000 / 100) +
          30 * (1 + min (qos.max_latency - e.capabilities.min_latency) 500 / 50) +
          20 * (1 + min (e.capabilities.reliability - qos.reliability) 50 / 10) +
          10 * ((100 + 65536 - e.load % 256) % 65536) % 65536 / 10
            < 65536 by omega)]
        rw [Nat.mod_eq_of_lt (show
          40 * (1 + min (e.capabilities.max_bandwidth - qos.min_bandwidth) 1000 / 100) +
          30 * (1 + min (qos.max_latency - e.capabilities.min_latency) 500 / 50) +
          20 * (1 + min (e.capabilities.reliability - qos.reliability) 50 / 10) +
          10 * ((100 + 65536 - e.load % 256) % 65536) % 65536 / 10 +
          5 * (e.capabilities.battery_level % 256) % 65536 / 10
            < 65536 by omega)]
        rw [Nat.mod_eq_of_lt (show
          40 * (1 + min (e.capabilities.max_bandwidth - qos.min_bandwidth) 1000 / 100) +
          30 * (1 + min (qos.max_latency - e.capabilities.min_latency) 500 / 50) +
          20 * (1 + min (e.capabilities.reliability - qos.reliability) 50 / 10) +
          10 * ((100 + 65536 - e.load % 256) % 65536) % 65536 / 10 +
          5 * (e.capabilities.battery_level % 256) % 65536 / 10 +
          signalFactor e.metrics.signal_strength
            < 65536 by omega)]
        omega
      · simp [h1, h2, h3]
    · simp [h1, h2]
  · simp [h1]

lemma specFirstAt_sound (st : ServiceType) (qos : QosRequirements) (v : Nat) :
    ∀ (l : List (Option ServiceEntry)) (s : ServiceEntry),
      specFirstAt st qos v l = some s →
      s.service_type = st ∧ s.score qos = v := by
  intro l
  induction l with
  | nil => intro s h; cases h
  | cons o rest ih =>
    intro s h
    cases o with
    | none => exact ih s h
    | some u =>
      by_cases hc : u.service_type = st ∧ u.score qos = v
      · simp only [specFirstAt, if_pos hc] at h
        cases h
        exact hc
      · simp only [specFirstAt, if_neg hc] at h
        exact ih s h

lemma specMaxScore_ge (st : ServiceType) (qos : QosRequirements) :
    ∀ (l : List (Option ServiceEntry)), ∀ o ∈ l, ∀ s, o = some s →
      s.service_type = st → s.score qos ≤ specMaxScore st qos l := by
  intro l
  induction l with
  | nil => intro o ho; cases ho
  | cons a rest ih =>
    intro o ho s hs hty
    rcases List.mem_cons.mp ho with rfl | hmem
    · subst hs
      simp only [specMaxScore, if_pos hty]
      exact Nat.le_max_left _ _
    · have htail := ih o hmem s hs hty
      cases a with
      | none => simpa [specMaxScore] using htail
      | some u =>
        by_cases hu : u.service_type = st
        · simp only [specMaxScore, if_pos hu]
          exact le_trans htail (Nat.le_max_right _ _)
        · simpa [specMaxScore, hu] using htail

lemma specMaxScore_zero_iff (st : ServiceType) (qos : QosRequirements) :
    ∀ l : List (Option ServiceEntry),
      specMaxScore st qos l = 0 ↔
      ∀ o ∈ l, ∀ s, o = some s → s.service_type = st → s.score qos = 0 := by
  intro l
  induction l with
  | nil => simp [specMaxScore]
  | cons a rest ih =>
    constructor
    · intro h o ho s hs hty
      rcases List.mem_cons.mp ho with rfl | hmem
      · subst hs
        simp only [specMaxScore, if_pos hty] at h
        omega
      · refine ih.mp ?_ o hmem s hs hty
        cases a with
        | none => simpa [specMaxScore] using h
        | some u =>
          by_cases hu : u.service_type = st
          · simp only [specMaxScore, if_pos hu] at h
            omega
          · simpa [specMaxScore, hu] using h
    · intro h
      have hrest : specMaxScore st qos rest = 0 :=
        ih.mpr (fun o ho s hs hty => h o (List.mem_cons_of_mem _ ho) s hs hty)
      cases a with
      | none => simpa [specMaxScore] using hrest
      | some u =>
        by_cases hu : u.service_type = st
        · have hz := h (some u) (List.mem_cons_self _ _) u rfl hu
          simp [specMaxScore, hu, hz, hrest]
        · simp [specMaxScore, hu, hrest]

lemma specFirstAt_some_of_pos (st : ServiceType) (qos : QosRequirements) :
    ∀ l : List (Option ServiceEntry), 0 < specMaxScore st qos l →
      ∃ s, specFirstAt st qos (specMaxScore st qos l) l = some s := by
  intro l
  induction l with
  | nil => intro h; simp [specMaxScore] at h
  | cons a rest ih =>
    intro h
    cases a with
    | none =>
      simp only [specMaxScore] at h ⊢
      simpa [specFirstAt] using ih h
    | some u =>
      by_cases hu : u.service_type = st
      · by_cases hq : u.score qos = specMaxScore st qos (some u :: rest)
        · exact ⟨u, by simp [specFirstAt, hu, hq]⟩
        · have hmax : specMaxScore st qos (some u :: rest) = specMaxScore st qos rest := by
            simp only [specMaxScore, if_pos hu] at hq ⊢
            omega
          have hpos : 0 < specMaxScore st qos rest := by omega
          obtain ⟨s, hs⟩ := ih hpos
          have hne : ¬(u.service_type = st ∧ u.score qos = specMaxScore st qos rest) := by
            rintro ⟨-, hc⟩
            exact hq (by rw [hmax]; exact hc)
          refine ⟨s, ?_⟩
          rw [hmax]
          simp only [specFirstAt, if_neg hne]
          exact hs
      · have hmax : specMaxScore st qos (some u :: rest) = specMaxScore st qos rest := by
          simp [specMaxScore, hu]
        have hpos : 0 < specMaxScore st qos rest := by omega
        obtain ⟨s, hs⟩ := ih hpos
        have hne : ¬(u.service_type = st ∧ u.score qos = specMaxScore st qos rest) :=
          fun hc => hu hc.1
        refine ⟨s, ?_⟩
        rw [hmax]
        simp only [specFirstAt, if_neg hne]
        exact hs

lemma findBestAux_spec (st : ServiceType) (qos : QosRequirements) :
    ∀ (l : List (Option ServiceEntry)) (best : Option ServiceEntry) (bs : Nat),
      findBestAux st qos l best bs =
        if bs < specMaxScore st qos l then
          specFirstAt st qos (specMaxScore st qos l) l
        else best := by
  intro l
  induction l with
  | nil =>
    intro best bs
    simp [findBestAux, specMaxScore]
  | cons o rest ih =>
    intro best bs
    cases o with
    | none =>
      simp only [findBestAux, specMaxScore, specFirstAt]
      exact ih best bs
    | some u =>
      have hM : specMaxScore st qos (some u :: rest) =
          (if u.service_type = st then max (u.score qos) (specMaxScore st qos rest)
           else specMaxScore st qos rest) := rfl
      by_cases hty : u.service_type = st
      · rw [hM, if_pos hty]
        by_cases hgt : bs < u.score qos
        · have hstep : findBestAux st qos (some u :: rest) best bs =
              findBestAux st qos rest (some u) (u.score qos) := by
            simp [findBestAux, hty, hgt, gt_iff_lt]
          rw [hstep, ih]
          by_cases hcmp : specMaxScore st qos rest ≤ u.score qos
          · rw [if_neg (by omega), if_pos (by omega)]
            have hMv : max (u.score qos) (specMaxScore st qos rest) = u.score qos := by
              omega
            rw [hMv]
            simp [specFirstAt, hty]
          · rw [if_pos (by omega), if_pos (by omega)]
            have hMv : max (u.score qos) (specMaxScore st qos rest) =
                specMaxScore st qos rest := by omega
            rw [hMv]
            have hcond : ¬(u.service_type = st ∧
                u.score qos = specMaxScore st qos rest) := by
              rintro ⟨-, hc⟩
              omega
            simp only [specFirstAt, if_neg hcond]
        · have hstep : findBestAux st qos (some u :: rest) best bs =
              findBestAux st qos rest best bs := by
            simp [findBestAux, hty, hgt, gt_iff_lt]
          rw [hstep, ih]
          by_cases hbs : bs < specMaxScore st qos rest
          · rw [if_pos hbs, if_pos (by omega)]
            have hMv : max (u.score qos) (specMaxScore st qos rest) =
                specMaxScore st qos rest := by omega
            rw [hMv]
            have hcond : ¬(u.service_type = st ∧
                u.score qos = specMaxScore st qos rest) := by
              rintro ⟨-, hc⟩
              omega
            simp only [specFirstAt, if_neg hcond]
          · rw [if_neg hbs, if_neg (by omega)]
      · have hstep : findBestAux st qos (some u :: rest) best bs =
            findBestAux st qos rest best bs := by
          simp [findBestAux, hty]
        rw [hstep, ih, hM, if_neg hty]
        by_cases hbs : bs < specMaxScore st qos rest
        · rw [if_pos hbs, if_pos hbs]
          have hcond : ¬(u.service_type = st ∧
              u.score qos = specMaxScore st qos rest) := fun hc => hty hc.1
          simp only [specFirstAt, if_neg hcond]
        · rw [if_neg hbs, if_neg hbs]

/-- C5: every entry returned by `find_best_service` satisfies the three hard
QoS bounds; the scan returns none exactly when no entry of the requested type
has a positive score; and a returned entry is of the requested type, has the
maximum score among matching entries (score > 0), and is the first entry in
slot-scan order attaining that maximum (`specFirstAt`/`specMaxScore` are the
spec-side characterizations). -/
theorem C5_find_best_service_qos :
    ∀ (d : NetworkServiceDirectory) (st : ServiceType) (qos : QosRequirements),
      (∀ s, d.find_best_service st qos = some s →
        qos.min_bandwidth ≤ s.capabilities.max_bandwidth ∧
        s.capabilities.min_latency ≤ qos.max_latency ∧
        qos.reliability ≤ s.capabilities.reliability) ∧
      (d.find_best_service st qos = none ↔
        ∀ o ∈ d.services, ∀ s, o = some s → s.service_type = st →
          s.score qos = 0) ∧
      (∀ s, d.find_best_service st qos = some s →
        s.service_type = st ∧ 0 < s.score qos ∧
        s.score qos = specMaxScore st qos d.services ∧
        specFirstAt st qos (specMaxScore st qos d.services) d.services = some s ∧
        ∀ o ∈ d.services, ∀ u, o = some u → u.service_type = st →
          u.score qos ≤ s.score qos) := by
  intro d st qos
  have hfb : d.find_best_service st qos =
      if 0 < specMaxScore st qos d.services then
        specFirstAt st qos (specMaxScore st qos d.services) d.services
      else none :=
    findBestAux_spec st qos d.services none 0
  have hmain : ∀ s, d.find_best_service st qos = some s →
      s.service_type = st ∧ 0 < s.score qos ∧
      s.score qos = specMaxScore st qos d.services ∧
      specFirstAt st qos (specMaxScore st qos d.services) d.services = some s ∧
      ∀ o ∈ d.services, ∀ u, o = some u → u.service_type = st →
        u.score qos ≤ s.score qos := by
    intro s hs
    rw [hfb] at hs
    by_cases hpos : 0 < specMaxScore st qos d.services
    · rw [if_pos hpos] at hs
      obtain ⟨hty, hsc⟩ := specFirstAt_sound st qos _ d.services s hs
      refine ⟨hty, by omega, hsc, hs, ?_⟩
      intro o ho u hu huty
      have := specMaxScore_ge st qos d.services o ho u hu huty
      omega
    · rw [if_neg hpos] at hs
      cases hs
  refine ⟨?_, ?_, hmain⟩
  · intro s hs
    have hpos := (hmain s hs).2.1
    exact ((score_spec s qos).1).mp hpos
  · rw [hfb]
    by_cases hpos : 0 < specMaxScore st qos d.services
    · rw [if_pos hpos]
      constructor
      · intro hnone
        obtain ⟨s, hs⟩ := specFirstAt_some_of_pos st qos d.services hpos
        rw [hs] at hnone
        cases hnone
      · intro hall
        have := (specMaxScore_zero_iff st qos d.services).mpr hall
        omega
    · rw [if_neg hpos]
      constructor
      · intro _
        exact (specMaxScore_zero_iff st qos d.services).mp (by omega)
      · intro _
        rfl

/-- Witness for C5 on a concrete directory with one VideoRelay server
(capabilities 1000 kbps / 50 ms / 95 %), queried with QoS 500 kbps / 100 ms /
80 %: a service is returned and it satisfies all three hard bounds. -/
theorem C5_find_best_service_qos_witness :
    ∃ s, ({
      services := [some {
        node_id := ⟨[9, 9, 9, 9, 9, 9]⟩,
        service_type := ServiceType.VideoRelay,
        load := 10,
        capabilities := { max_bandwidth := 1000, min_latency := 50, reliability := 95, battery_level := 80 },
        last_update_time := 0,
        metrics := { success_rate := 100, avg_response_time := 50, signal_strength := -70 } }],
      service_count := 1,
      last_cleanup_time := 0 } :
        NetworkServiceDirectory).find_best_service ServiceType.VideoRelay
        { min_bandwidth := 500, max_latency := 100, reliability := 80 } = some s ∧
      (500 : Nat) ≤ s.capabilities.max_bandwidth ∧
      s.capabilities.min_latency ≤ 100 ∧
      (80 : Nat) ≤ s.capabilities.reliability := by
  refine ⟨_, rfl, ?_⟩
  exact (C5_find_best_service_qos {
      services := [some {
        node_id := ⟨[9, 9, 9, 9, 9, 9]⟩,
        service_type := ServiceType.VideoRelay,
        load := 10,
        capabilities := { max_bandwidth := 1000, min_latency := 50, reliability := 95, battery_level := 80 },
        last_update_time := 0,
        metrics := { success_rate := 100, avg_response_time := 50, signal_strength := -70 } }],
      service_count := 1,
      last_cleanup_time := 0 } ServiceType.VideoRelay
    { min_bandwidth := 500, max_latency := 100, reliability := 80 }).1 _ rfl

/-- `ElectionState` (`directory/election.rs`). -/
inductive ElectionState
  | Idle
  | Electing
  | Completed
deriving DecidableEq

/-- `ElectionProtocol` state: node id, 16-bit election id, state, believed
master. (The receive buffer holds no protocol state and is omitted; note the
struct retains NO record of received ElectionResponse messages.) -/
structure ElectionProtocol where
  node_id : NodeId
  election_id : Nat
  state : ElectionState
  current_master : Option NodeId
deriving DecidableEq

/-- `get_priority`: the first byte of the node id. -/
def ElectionProtocol.get_priority (p : ElectionProtocol) : Nat :=
  p.node_id.bytes.getD 0 0

/-- `finish_election`: unconditionally declare the local node the master and
mark the election Completed; also returns the broadcast ElectionResult
payload `[0x03, id_hi, id_lo, master(6 bytes), 0]`. It consults nothing but
the protocol's own fields — no response tally exists to consult. -/
def ElectionProtocol.finish_election (p : ElectionProtocol) :
    ElectionProtocol × List Nat :=
  ({ p with current_master := some p.node_id, state := ElectionState.Completed },
   [3, p.election_id / 256 % 256, p.election_id % 256] ++ p.node_id.bytes ++ [0])

/-- `initiate_election`: wrapping-increment the u16 election id
(`wrapping_add(1)`), enter Electing, broadcast the ElectionStart payload
`[0x01, id_hi, id_lo, priority]`, wait 5 s (a pure delay), then run
`finish_election`. Returns the final state and both broadcast payloads. -/
def ElectionProtocol.initiate_election (p : ElectionProtocol) :
    ElectionProtocol × List (List Nat) :=
  let p1 := { p with election_id := (p.election_id + 1) % 65536,
                     state := ElectionState.Electing }
  let start_msg := [1, p1.election_id / 256 % 256, p1.election_id % 256,
    p1.get_priority]
  let fin := p1.finish_election
  (fin.1, [start_msg, fin.2])

/-- The state effects of `process_messages` on one received packet payload
(`handle_election_start` / `handle_election_response` /
`handle_election_result`): length-checked dispatch on the first byte.
Responses are only logged, never recorded. -/
def ElectionProtocol.process_election_message (p : ElectionProtocol)
    (payload : List Nat) : ElectionProtocol :=
  if payload = [] then p
  else if payload.getD 0 0 = 1 then
    if payload.length < 4 then p
    else if payload.getD 3 0 > p.get_priority then p
    else if p.state ≠ ElectionState.Electing then (p.initiate_election).1
    else p
  else if payload.getD 0 0 = 2 then p
  else if payload.getD 0 0 = 3 then
    if payload.length < 9 then p
    else { p with
      current_master := some ⟨[payload.getD 3 0, payload.getD 4 0, payload.getD 5 0,
        payload.getD 6 0, payload.getD 7 0, payload.getD 8 0]⟩,
      state := ElectionState.Completed }
  else p

/-- C6: after `initiate_election` the election id has been incremented by one
modulo 2^16, the believed master is the local node itself, and the state is
Completed; `finish_election` declares the local node master from any state,
using nothing but the local fields (no response tally exists). -/
theorem C6_election_declares_self_master :
    ∀ p : ElectionProtocol,
      (p.initiate_election).1.election_id = (p.election_id + 1) % 65536 ∧
      (p.initiate_election).1.current_master = some p.node_id ∧
      (p.initiate_election).1.state = ElectionState.Completed ∧
      (p.initiate_election).1.node_id = p.node_id ∧
      (∀ q : ElectionProtocol,
        (q.finish_election).1.current_master = some q.node_id ∧
        (q.finish_election).1.state = ElectionState.Completed ∧
        (q.finish_election).1.election_id = q.election_id) :=
  fun _ => ⟨rfl, rfl, rfl, rfl, fun _ => ⟨rfl, rfl, rfl⟩⟩

/-- What `handle_path_confirm` (`forward/src/main.rs`) relays to the client:
with at least 8 payload bytes it copies bytes 0..8 and overwrites byte 7 with
`hops + 1`. The increment is u8 arithmetic, so 255 wraps to 0 in a release
build (under debug overflow checks the addition panics); shorter payloads are
silently ignored (`none`). -/
def pathConfirmRelayData (data : List Nat) : Option (List Nat) :=
  if 8 ≤ data.length then
    some ((data.take 8).set 7 ((data.getD 7 0 + 1) % 256))
  else none

set_option maxRecDepth 4096 in
/-- C8 counterexample: `DataPacket::new` PANICS (modelled as `none`) on a
235-byte payload — its first statement is
`assert!(data.len() <= MAX_PACKET_SIZE - size_of::<DataHeader>())`, i.e.
`len <= 234` — so not every core operation is panic-free on malformed input. -/
theorem C8_no_panic_counterexample :
    DataPacket.new ⟨[1, 1, 1, 1, 1, 1]⟩ ⟨[2, 2, 2, 2, 2, 2]⟩ 0
      (List.replicate 235 0) = none := by
  simp [DataPacket.new]

/-- C8 (amended): the parsing paths are bounds-checked — both service
deserializers return none on short buffers (`deserialize_service_request` on
fewer than 8 bytes, `deserialize_service_response` on fewer than 11), the
path-confirm relay ignores payloads shorter than 8 bytes, and election
messages shorter than their per-tag minimum (4 bytes for
ElectionStart/ElectionResponse and any other tag, 9 bytes for ElectionResult)
leave the election state untouched — but construction is not panic-free:
`DataPacket::new` asserts the payload length is at most 234 and panics (none)
beyond it, and the relayed hop byte is `(hops + 1) mod 256`, which wraps 255
to 0 (a panic under debug overflow checks). -/
theorem C8_bounds_checked_but_constructor_asserts :
    (∀ (s t : NodeId) (pid : Nat) (data : List Nat),
      DataPacket.new s t pid data = none ↔ 234 < data.length) ∧
    (∀ data : List Nat, pathConfirmRelayData data = none ↔ data.length < 8) ∧
    ((pathConfirmRelayData [7, 7, 7, 7, 7, 7, 0, 255]).map
      (fun l => l.getD 7 0) = some 0) ∧
    (∀ (p : ElectionProtocol) (payload : List Nat), payload.length < 4 →
      p.process_election_message payload = p) ∧
    (∀ (p : ElectionProtocol) (payload : List Nat), payload.getD 0 0 = 3 →
      payload.length < 9 → p.process_election_message payload = p) ∧
    (∀ buffer : List Nat, buffer.length < 8 →
      deserialize_service_request buffer = none) ∧
    (∀ buffer : List Nat, buffer.length < 11 →
      deserialize_service_response buffer = none) := by
  refine ⟨?_, ?_, rfl, ?_, ?_, ?_, ?_⟩
  · intro s t pid data
    by_cases h : data.length ≤ 234 <;> simp [DataPacket.new, h] <;> omega
  · intro data
    by_cases h : 8 ≤ data.length <;> simp [pathConfirmRelayData, h] <;> omega
  · intro p payload h
    unfold ElectionProtocol.process_election_message
    split_ifs <;> first | rfl | omega
  · intro p payload htag h
    unfold ElectionProtocol.process_election_message
    split_ifs <;> first | rfl | omega
  · intro buffer h
    simp [deserialize_service_request, h]
  · intro buffer h
    simp [deserialize_service_response, h]

/-- Witness for C8 (amended) at concrete inputs: a 6-byte path-confirm
payload is dropped; a 3-byte election payload (shorter than every minimum)
and an 8-byte ElectionResult payload (below its 9-byte minimum) both leave a
concrete election state unchanged; and a 3-byte response buffer fails to
decode. -/
theorem C8_bounds_checked_but_constructor_asserts_witness :
    pathConfirmRelayData [9, 9, 9, 9, 9, 9] = none ∧
    ({ node_id := ⟨[5, 0, 0, 0, 0, 0]⟩, election_id := 0,
       state := ElectionState.Idle, current_master := none } :
      ElectionProtocol).process_election_message [3, 0, 0] =
      { node_id := ⟨[5, 0, 0, 0, 0, 0]⟩, election_id := 0,
        state := ElectionState.Idle, current_master := none } ∧
    ({ node_id := ⟨[5, 0, 0, 0, 0, 0]⟩, election_id := 0,
       state := ElectionState.Idle, current_master := none } :
      ElectionProtocol).process_election_message [3, 0, 0, 0, 0, 0, 0, 0] =
      { node_id := ⟨[5, 0, 0, 0, 0, 0]⟩, election_id := 0,
        state := ElectionState.Idle, current_master := none } ∧
    deserialize_service_response [1, 2, 3] = none :=
  ⟨(C8_bounds_checked_but_constructor_asserts.2.1 [9, 9, 9, 9, 9, 9]).mpr
      (by norm_num),
   C8_bounds_checked_but_constructor_asserts.2.2.2.1 _ [3, 0, 0] (by norm_num),
   C8_bounds_checked_but_constructor_asserts.2.2.2.2.1 _
     [3, 0, 0, 0, 0, 0, 0, 0] rfl (by norm_num),
   C8_bounds_checked_but_constructor_asserts.2.2.2.2.2.2 [1, 2, 3] (by norm_num)⟩

end LinkNebula
